import Mathlib

/-!
Verification of the rustkrazy packer image-assembly engine (src/main.rs)
against its natural-language specification.

The Rust source is shallowly embedded: machine integers are modelled as
Nat with explicit reduction modulo 2^32 where u32 wrapping matters, byte
buffers as List Nat, and names (crate names, URLs) as List Char.  Fallible
or panicking operations are modelled with Option / Except.
-/

set_option maxRecDepth 4000

namespace RustkrazyPacker

/-! ## Constants (src/main.rs lines 24-27)

The source defines KiB = 1024 and MiB = 1024 * KiB as u32 constants. -/

def KiB : Nat := 1024

def MiB : Nat := 1024 * KiB

/-- Modulus of the u32 type. -/
def U32 : Nat := 4294967296

/-- Wrapping u32 subtraction, the release-build semantics of the `-`
operator on u32 in the Rust source.  (Debug builds would panic on
underflow instead; the spec-relevant computations are modelled with the
wrapping behaviour and the claims about underflow discuss both.) -/
def u32sub (a b : Nat) : Nat := (a % U32 + U32 - b % U32) % U32

/-! ## Partition table (write_mbr_partition_table, src/main.rs lines 78-125)

The function unconditionally writes one fixed four-entry MBR partition
table: boot (FAT, active, at LBA 2048, 256 MiB), rootfs A and rootfs B
(Linux, 256 MiB each, consecutive), and data (Linux, taking the rest of
the device as computed in u32 arithmetic from `dev_size as u32`).
There is no layout-scheme selector and no size check in the source. -/

structure PartEntry where
  active : Bool
  ptype : Nat
  startLba : Nat
  sizeSectors : Nat
deriving DecidableEq

/-- Partition 1: boot.  Active, type 0x0c (FAT), start sector 2048,
size 256 MiB (lines 89-95). -/
def bootEntry : PartEntry := ⟨true, 0x0c, 2048, 256 * MiB / 512⟩

/-- Partition 2: rootfs A (lines 97-103). -/
def rootAEntry : PartEntry := ⟨false, 0x83, 2048 + 256 * MiB / 512, 256 * MiB / 512⟩

/-- Partition 3: rootfs B (lines 105-111). -/
def rootBEntry : PartEntry := ⟨false, 0x83, 2048 + 2 * (256 * MiB / 512), 256 * MiB / 512⟩

/-- Partition 4: data (lines 113-119).  The size field is
`dev_size as u32 / 512 - 2048 - 3 * (256 * MiB / 512)`: the device size
is truncated to u32 first, and the subtractions are u32 operations. -/
def dataEntry (devSize : Nat) : PartEntry :=
  ⟨false, 0x83, 2048 + 3 * (256 * MiB / 512),
    u32sub (u32sub (devSize % U32 / 512) 2048) (3 * (256 * MiB / 512))⟩

/-- The full table written by write_mbr_partition_table, in on-disk order. -/
def mbrTable (devSize : Nat) : List PartEntry :=
  [bootEntry, rootAEntry, rootBEntry, dataEntry devSize]

/-- Sector s lies inside entry e. -/
def entrySpan (e : PartEntry) (s : Nat) : Prop :=
  e.startLba ≤ s ∧ s < e.startLba + e.sizeSectors

instance instDecidableEntrySpan (e : PartEntry) (s : Nat) : Decidable (entrySpan e s) :=
  inferInstanceAs (Decidable (e.startLba ≤ s ∧ s < e.startLba + e.sizeSectors))

/-! ## Byte-range handles (partition, src/main.rs lines 127-143)

The orchestrator slices the output file into byte ranges with
fscommon's StreamSlice.  StreamSlice is an external dependency (not part
of this repository); per its implementation, `StreamSlice::new(inner,
first_byte, last_byte)` yields a window of `last_byte - first_byte`
bytes starting at byte `first_byte` (half-open range
[first_byte, last_byte)). -/

structure StreamSlice where
  firstByte : Nat
  size : Nat
deriving DecidableEq

def streamSliceNew (firstByte lastByte : Nat) : StreamSlice :=
  ⟨firstByte, lastByte - firstByte⟩

/-- ROOT_A_START constant (line 135). -/
def ROOT_A_START : Nat := 2048 * 512 + 256 * MiB

/-- root_a_end (line 136). -/
def rootAEnd : Nat := ROOT_A_START + 256 * MiB

/-- root_b_end (line 137). -/
def rootBEnd : Nat := rootAEnd + 256 * MiB

/-- Handle given to the Boot Volume Builder (line 141). -/
def bootSlice : StreamSlice := streamSliceNew (2048 * 512) (ROOT_A_START - 1)

/-- Handle given to the Root Filesystem Assembler for slot A (line 142). -/
def rootASlice : StreamSlice := streamSliceNew ROOT_A_START (rootAEnd - 1)

/-- Handle given to the Root Filesystem Assembler for slot B (line 143). -/
def rootBSlice : StreamSlice := streamSliceNew rootAEnd (rootBEnd - 1)

/-- Exactness of wrapping subtraction when no underflow occurs. -/
theorem u32sub_eq_sub (a b : Nat) (h1 : a < U32) (h2 : b ≤ a) :
    u32sub a b = a - b := by
  unfold u32sub U32 at *
  omega

theorem dataEntry_size (S : Nat) (h1 : S < U32) (h2 : 512 * 1574912 ≤ S) :
    (dataEntry S).sizeSectors = S / 512 - 1574912 := by
  unfold dataEntry MiB KiB
  unfold u32sub U32 at *
  simp only
  omega

/-- C2 counterexample: 6 GiB is a valid total size (it exceeds the fixed
regions), yet the table write_mbr_partition_table produces for it
violates the claim: the device size is truncated to u32 before the
sector arithmetic, so the data partition gets 2619392 sectors instead of
the remainder S / 512 - 2048 - 3 * 524288 = 11008000, and the entries
plus the [0, 2048) gap no longer cover [0, S / 512) — sector 5000000
lies on the device but inside no partition. -/
theorem claim2_counterexample :
    512 * 1574912 ≤ 6442450944
    ∧ (dataEntry 6442450944).sizeSectors = 2619392
    ∧ (dataEntry 6442450944).sizeSectors ≠ 6442450944 / 512 - 2048 - 3 * 524288
    ∧ ¬(∀ s, s < 6442450944 / 512 ↔ (s < 2048 ∨ ∃ e ∈ mbrTable 6442450944, entrySpan e s)) := by
  refine ⟨by decide, by decide, by decide, ?_⟩
  intro hall
  have h5 := (hall 5000000).mp (by norm_num)
  revert h5
  decide

/-- C2 amended: for every device size S that is large enough for the
fixed slots AND below 2^32 (the size arithmetic is u32, so above 4 GiB
the truncation proven in claim9_data_size_truncation falsifies the
original unrestricted claim), the partition entries written by
write_mbr_partition_table are pairwise non-overlapping (each entry ends
no later than the next begins), sector-aligned (byte extents are
multiples of 512), and their sectors together with the unused alignment
gap [0, 2048) cover exactly [0, S / 512); boot, rootfs A and rootfs B are
each 256 MiB (524288 sectors) with boot starting at LBA 2048, and the
data partition absorbs the remainder S / 512 - 2048 - 3 * 524288. -/
theorem claim2_partition_invariants (S : Nat) (h1 : S < U32) (h2 : 512 * 1574912 ≤ S) :
    List.Pairwise (fun a b => a.startLba + a.sizeSectors ≤ b.startLba) (mbrTable S)
    ∧ (∀ e ∈ mbrTable S, 512 ∣ 512 * e.startLba ∧ 512 ∣ 512 * e.sizeSectors)
    ∧ (∀ s, s < S / 512 ↔ (s < 2048 ∨ ∃ e ∈ mbrTable S, entrySpan e s))
    ∧ bootEntry.startLba = 2048
    ∧ bootEntry.sizeSectors = 524288
    ∧ rootAEntry.sizeSectors = 524288
    ∧ rootBEntry.sizeSectors = 524288
    ∧ (dataEntry S).sizeSectors = S / 512 - 2048 - 3 * 524288 := by
  have hd := dataEntry_size S h1 h2
  refine ⟨?_, ?_, ?_, rfl, rfl, rfl, rfl, by omega⟩
  · simp [mbrTable, List.pairwise_cons, bootEntry, rootAEntry, rootBEntry, dataEntry, MiB, KiB]
  · intro e _
    exact ⟨⟨e.startLba, by ring⟩, ⟨e.sizeSectors, by ring⟩⟩
  · intro s
    have hds : (dataEntry S).startLba = 1574912 := rfl
    simp only [mbrTable, List.mem_cons, List.not_mem_nil, or_false, exists_eq_or_imp,
      exists_eq_left, entrySpan]
    rw [hd, hds]
    have hb1 : bootEntry.startLba = 2048 := rfl
    have hb2 : bootEntry.sizeSectors = 524288 := rfl
    have ha1 : rootAEntry.startLba = 526336 := rfl
    have ha2 : rootAEntry.sizeSectors = 524288 := rfl
    have hc1 : rootBEntry.startLba = 1050624 := rfl
    have hc2 : rootBEntry.sizeSectors = 524288 := rfl
    rw [hb1, hb2, ha1, ha2, hc1, hc2]
    omega

/-- Witness for C2 at S = 2 GiB: the data partition absorbs the
remainder. -/
theorem claim2_witness :
    (dataEntry 2147483648).sizeSectors = 2147483648 / 512 - 2048 - 3 * 524288 :=
  (claim2_partition_invariants 2147483648 (by decide) (by decide)).2.2.2.2.2.2.2

/-- C3 (code bug): write_mbr_partition_table performs no insufficient-
space check.  At a 1 MiB device (which is far below the 3 fixed 256 MiB
slots plus the 1 MiB alignment gap) the u32 size expression for the data
partition underflows: with the release-build wrapping semantics the
function still produces a full table whose data partition claims
4293394432 sectors and extends far beyond the end of the device (a debug
build would panic mid-write instead; neither is an insufficient-space
error). -/
theorem claim3_underflow_no_check :
    1048576 / 512 < 2048 + 3 * (256 * MiB / 512)
    ∧ (dataEntry 1048576).sizeSectors = 4293394432
    ∧ 1048576 / 512 < (dataEntry 1048576).startLba + (dataEntry 1048576).sizeSectors := by
  decide

/-- C4 counterexample: the code has no Single-Root scheme; at
S = 2 GiB the only partition starting at LBA 526336 is rootfs A with
524288 sectors, not a root partition of 3670016 sectors as the claim
states. -/
theorem claim4_counterexample :
    (∀ e ∈ mbrTable 2147483648, ¬(e.startLba = 526336 ∧ e.sizeSectors = 3670016))
    ∧ rootAEntry.startLba = 526336 ∧ rootAEntry.sizeSectors = 524288 := by
  decide

/-- C4 amended: the code writes only the fixed Dual-Root table.  The
partition whose size equals S / 512 minus its own start LBA is the last
(data) partition, and at S = 2 GiB the table is boot (2048, 524288),
rootfs A (526336, 524288), rootfs B (1050624, 524288),
data (1574912, 2619392). -/
theorem claim4_amended (S : Nat) (h1 : S < U32) (h2 : 512 * 1574912 ≤ S) :
    (dataEntry S).sizeSectors = S / 512 - (dataEntry S).startLba
    ∧ (mbrTable 2147483648).map (fun e => (e.startLba, e.sizeSectors))
      = [(2048, 524288), (526336, 524288), (1050624, 524288), (1574912, 2619392)] := by
  have hd := dataEntry_size S h1 h2
  have hds : (dataEntry S).startLba = 1574912 := rfl
  exact ⟨by omega, by decide⟩

/-- Witness for C4's amended claim at S = 2 GiB. -/
theorem claim4_amended_witness :
    (dataEntry 2147483648).sizeSectors = 2147483648 / 512 - (dataEntry 2147483648).startLba :=
  (claim4_amended 2147483648 (by decide) (by decide)).1

/-- C9: the data partition's size field is computed from the device size
truncated modulo 2^32 (`dev_size as u32`), i.e. it equals
(S mod 2^32) / 512 - 2048 - 3 * 524288 whenever that subtraction does
not underflow; consequently for a 5 GiB target the stored field (522240
sectors) does not reflect the true remaining space. -/
theorem claim9_data_size_truncation (S : Nat) (h : 1574912 ≤ S % U32 / 512) :
    (dataEntry S).sizeSectors = S % U32 / 512 - 2048 - 3 * (256 * MiB / 512)
    ∧ (dataEntry 5368709120).sizeSectors = 522240
    ∧ (dataEntry 5368709120).sizeSectors ≠ 5368709120 / 512 - 2048 - 3 * (256 * MiB / 512) := by
  refine ⟨?_, by decide, by decide⟩
  unfold dataEntry MiB KiB
  unfold u32sub U32 at *
  simp only
  omega

/-- Witness for C9 at S = 5 GiB. -/
theorem claim9_witness :
    1574912 ≤ 5368709120 % U32 / 512
    ∧ ((dataEntry 5368709120).sizeSectors
        = 5368709120 % U32 / 512 - 2048 - 3 * (256 * MiB / 512)
      ∧ (dataEntry 5368709120).sizeSectors = 522240
      ∧ (dataEntry 5368709120).sizeSectors
        ≠ 5368709120 / 512 - 2048 - 3 * (256 * MiB / 512)) :=
  ⟨by decide, claim9_data_size_truncation 5368709120 (by decide)⟩

/-- C10: each byte-range handle created in `partition` stops one byte
before its region's end: the boot handle covers
[2048 * 512, 2048 * 512 + 256 MiB - 1) and the two root handles likewise
span 256 MiB - 1 bytes, one byte less than the 256 MiB (524288-sector)
size recorded in the corresponding partition-table entry. -/
theorem claim10_slice_off_by_one :
    bootSlice.firstByte = 2048 * 512
    ∧ bootSlice.size = 256 * MiB - 1
    ∧ rootASlice.firstByte = 2048 * 512 + 256 * MiB
    ∧ rootASlice.size = 256 * MiB - 1
    ∧ rootBSlice.firstByte = 2048 * 512 + 2 * (256 * MiB)
    ∧ rootBSlice.size = 256 * MiB - 1
    ∧ 512 * bootEntry.sizeSectors = 256 * MiB
    ∧ 512 * rootAEntry.sizeSectors = 256 * MiB
    ∧ 512 * rootBEntry.sizeSectors = 256 * MiB
    ∧ bootSlice.size + 1 = 512 * bootEntry.sizeSectors := by
  decide

/-! ## Bootloader patching (write_mbr, src/main.rs lines 248-291)

write_mbr re-reads bytes from the output file (starting at the file
cursor, which the FAT layer's final flush leaves a few bytes inside the
first sector of the boot region — write_mbr performs no seek before the
read), locates the kernel and cmdline content with a first-match
byte-sequence search, converts the match offset to a sector with
offset / 512 + 1, adds the region base LBA 2048, and rewrites MBR bytes
[0..440) with the (truncated or zero-padded) bootloader followed by the
two little-endian u32 LBAs. -/

/-- First-match byte-sequence search, modelling
`buf.windows(len).position(|w| w == pat)`.  The source panics (via
.expect) both when the pattern is empty (windows(0)) and when no window
matches; both outcomes are modelled as none. -/
def windowsPos (buf pat : List Nat) : Option Nat :=
  if pat.length = 0 then none
  else (List.range (buf.length + 1 - pat.length)).find? fun i =>
    List.take pat.length (List.drop i buf) == pat

/-- Sector conversion `(position / 512 + 1).try_into::<u32>()`; the
conversion fails for values not representable in u32. -/
def contentSector (buf pat : List Nat) : Option Nat :=
  (windowsPos buf pat).bind fun p =>
    if p / 512 + 1 < U32 then some (p / 512 + 1) else none

/-- Absolute LBA `offset + 2048` computed in u32 arithmetic. -/
def contentLba (buf pat : List Nat) : Option Nat :=
  (contentSector buf pat).map fun s => (s + 2048) % U32

/-- Reading len bytes forward after seeking to absolute byte pos. -/
def readAt (disk : List Nat) (pos len : Nat) : List Nat :=
  (disk.drop pos).take len

theorem take_append_len {α : Type} (l₁ l₂ : List α) (n : Nat) (h : l₁.length = n) :
    (l₁ ++ l₂).take n = l₁ := by
  subst h
  exact List.take_left l₁ l₂

theorem drop_append_len {α : Type} (l₁ l₂ : List α) (n : Nat) (h : l₁.length = n) :
    (l₁ ++ l₂).drop n = l₂ := by
  subst h
  exact List.drop_left l₁ l₂

/-- C1: let the boot region (based at absolute byte 2048 * 512, i.e.
after a prefix `pre` of that length) hold a manifest file's content at
the sector-aligned region offset 512 * c, and let the re-read buffer
begin d bytes into the region with 0 < d ≤ 512 (the cursor position the
FAT layer's final flush leaves inside the region's first sector — the
spec's "+1 accounts for the reserved boot sector"; `tl` is whatever
follows the region in the buffer).  If the first match of the content in
that buffer is its real occurrence (at buffer offset 512 * c - d), then
write_mbr computes the LBA 2048 + (offset / 512 + 1) = 2048 + c, and
seeking to that LBA's byte address in the target and reading forward
yields exactly the content. -/
theorem claim1_lba_lands_on_content (pre region tl content : List Nat) (c d : Nat)
    (hpre : pre.length = 2048 * 512)
    (hd0 : 0 < d) (hd1 : d ≤ 512) (hc1 : 1 ≤ c) (hc2 : c ≤ 2 ^ 31)
    (hocc : readAt region (512 * c) content.length = content)
    (hfirst : windowsPos (region.drop d ++ tl) content = some (512 * c - d)) :
    contentLba (region.drop d ++ tl) content = some (2048 + c)
    ∧ readAt (pre ++ region) (512 * (2048 + c)) content.length = content := by
  have hdiv : (512 * c - d) / 512 + 1 = c := by omega
  constructor
  · have hlt : (512 * c - d) / 512 + 1 < U32 := by unfold U32; omega
    unfold contentLba contentSector
    rw [hfirst]
    simp only [Option.bind, if_pos hlt, Option.map]
    rw [hdiv]
    have : (c + 2048) % U32 = 2048 + c := by unfold U32; omega
    rw [this]
  · have hsplit : 512 * (2048 + c) = pre.length + 512 * c := by rw [hpre]; ring
    unfold readAt
    rw [hsplit, ← List.drop_drop, List.drop_left]
    exact hocc

/-- Witness for C1: content [1, 2, 3] at region offset 512 (c = 1), the
re-read buffer starting at region offset 512 (d = 512); the computed LBA
2049 reads back exactly the content. -/
theorem claim1_witness :
    contentLba ((List.replicate 512 (0 : Nat) ++ [1, 2, 3]).drop 512 ++ []) [1, 2, 3]
      = some (2048 + 1)
    ∧ readAt (List.replicate (2048 * 512) (0 : Nat)
        ++ (List.replicate 512 (0 : Nat) ++ [1, 2, 3]))
        (512 * (2048 + 1)) ([1, 2, 3] : List Nat).length = [1, 2, 3] :=
  claim1_lba_lands_on_content (List.replicate (2048 * 512) 0)
    (List.replicate 512 0 ++ [1, 2, 3]) [] [1, 2, 3] 1 512
    (List.length_replicate _ _) (by decide) (by decide) (by decide) (by decide)
    (by decide) (by decide)

/-- Vec::resize(n, 0) semantics (line 277): truncate when longer,
zero-pad when shorter. -/
def vecResize (v : List Nat) (n : Nat) : List Nat :=
  if v.length ≤ n then v ++ List.replicate (n - v.length) 0 else v.take n

/-- Little-endian byte serialization of a u32 (`to_le_bytes`). -/
def le32 (x : Nat) : List Nat :=
  [x % 256, x / 256 % 256, x / 65536 % 256, x / 16777216 % 256]

/-- Little-endian decoding of four bytes. -/
def decodeLe32 : List Nat → Nat
  | b0 :: b1 :: b2 :: b3 :: _ => b0 + 256 * b1 + 65536 * b2 + 16777216 * b3
  | _ => 0

/-- Bytes written to the MBR by write_mbr (lines 270-281): the
bootloader buffer resized to 432 bytes, its slice [..432], then the two
little-endian u32 LBAs.  klba and clba are u32 values. -/
def mbrPatchBytes (bl : List Nat) (klba clba : Nat) : List Nat :=
  (vecResize bl 432).take 432 ++ (le32 klba ++ le32 clba)

theorem vecResize_length (v : List Nat) (n : Nat) : (vecResize v n).length = n := by
  unfold vecResize
  split
  · simp only [List.length_append, List.length_replicate]
    omega
  · simp only [List.length_take]
    omega

theorem decode_le32 (x : Nat) (h : x < U32) : decodeLe32 (le32 x) = x := by
  unfold U32 at h
  simp only [le32, decodeLe32]
  omega

/-- C5 counterexample: a 433-byte bootloader binary is not rejected —
write_mbr resizes it down to its first 432 bytes (Vec::resize truncates)
and writes the patched MBR anyway. -/
theorem claim5_counterexample :
    432 < (List.replicate 433 (7 : Nat)).length
    ∧ (mbrPatchBytes (List.replicate 433 7) 4096 8192).take 432 = List.replicate 432 7
    ∧ (mbrPatchBytes (List.replicate 433 7) 4096 8192).length = 440 := by
  decide

/-- C5 amended: for every first-stage bootloader binary, write_mbr writes
440 bytes: bytes [0..432) are the binary zero-padded to 432 bytes when it
is at most 432 bytes long, and its first 432 bytes (silent truncation,
not an error) when longer; bytes [432..436) and [436..440) are the
little-endian u32 kernel and cmdline LBAs. -/
theorem claim5_amended (bl : List Nat) (klba clba : Nat) (hk : klba < U32) (hc : clba < U32) :
    (mbrPatchBytes bl klba clba).length = 440
    ∧ (mbrPatchBytes bl klba clba).take 432 = vecResize bl 432
    ∧ decodeLe32 (((mbrPatchBytes bl klba clba).drop 432).take 4) = klba
    ∧ decodeLe32 ((mbrPatchBytes bl klba clba).drop 436) = clba
    ∧ (bl.length ≤ 432 → (mbrPatchBytes bl klba clba).take 432
        = bl ++ List.replicate (432 - bl.length) 0)
    ∧ (432 < bl.length → (mbrPatchBytes bl klba clba).take 432 = bl.take 432) := by
  have hv : (vecResize bl 432).length = 432 := vecResize_length bl 432
  have htk : (vecResize bl 432).take 432 = vecResize bl 432 :=
    List.take_of_length_le (le_of_eq hv)
  have hmb : mbrPatchBytes bl klba clba = vecResize bl 432 ++ (le32 klba ++ le32 clba) := by
    unfold mbrPatchBytes
    rw [htk]
  have htake : (mbrPatchBytes bl klba clba).take 432 = vecResize bl 432 := by
    rw [hmb, take_append_len _ _ _ hv]
  have hdrop : (mbrPatchBytes bl klba clba).drop 432 = le32 klba ++ le32 clba := by
    rw [hmb, drop_append_len _ _ _ hv]
  have hl4 : (le32 klba).length = 4 := by simp [le32]
  refine ⟨?_, htake, ?_, ?_, ?_, ?_⟩
  · rw [hmb]
    simp only [List.length_append, hv, le32, List.length_cons, List.length_nil]
  · rw [hdrop, take_append_len _ _ _ hl4, decode_le32 klba hk]
  · rw [show (436 : Nat) = 432 + 4 from rfl, ← List.drop_drop, hdrop,
      drop_append_len _ _ _ hl4, decode_le32 clba hc]
  · intro h
    rw [htake]
    unfold vecResize
    rw [if_pos h]
  · intro h
    rw [htake]
    unfold vecResize
    rw [if_neg (by omega)]

/-- Witness for C5's amended claim with a 2-byte bootloader. -/
theorem claim5_amended_witness :
    (mbrPatchBytes [9, 9] 4096 8192).length = 440
    ∧ (mbrPatchBytes [9, 9] 4096 8192).take 432 = vecResize [9, 9] 432
    ∧ decodeLe32 (((mbrPatchBytes [9, 9] 4096 8192).drop 432).take 4) = 4096
    ∧ decodeLe32 ((mbrPatchBytes [9, 9] 4096 8192).drop 436) = 8192
    ∧ (([9, 9] : List Nat).length ≤ 432 → (mbrPatchBytes [9, 9] 4096 8192).take 432
        = [9, 9] ++ List.replicate (432 - ([9, 9] : List Nat).length) 0)
    ∧ (432 < ([9, 9] : List Nat).length → (mbrPatchBytes [9, 9] 4096 8192).take 432
        = [9, 9].take 432) :=
  claim5_amended [9, 9] 4096 8192 (by decide) (by decide)

/-! ## Package-spec name resolution and the init gate
(main, src/main.rs lines 542-599; write_root lines 293-516)

Names and URLs are modelled as List Char.  A git package spec resolves to
the explicit override after the first '%', else to the last '/'-segment
of the URL with every trailing ".git" trimmed (Url::parse is modelled on
the raw string; this agrees with the source for absolute URLs with a
path and no query or fragment, the only shapes the resolution logic
distinguishes). -/

/-- Rust `str::split(sep)` on a character. -/
def splitOnChar (sep : Char) : List Char → List (List Char)
  | [] => [[]]
  | c :: rest =>
    match splitOnChar sep rest with
    | [] => [[]]
    | h :: t => if c == sep then [] :: h :: t else (c :: h) :: t

/-- Fuelled helper for trim_end_matches(".git"); the fuel l.length
bounds the number of removals. -/
def trimGitAux : Nat → List Char → List Char
  | 0, l => l
  | n + 1, l =>
    if l.drop (l.length - 4) == ['.', 'g', 'i', 't']
    then trimGitAux n (l.take (l.length - 4))
    else l

/-- Rust `trim_end_matches(".git")`: repeatedly removes a trailing
".git". -/
def trimGit (l : List Char) : List Char := trimGitAux l.length l

/-- Resolved binary name of a git package spec (lines 349-360, 404-415,
552-572): the part after the first '%' if present, else the URL's last
path segment with trailing ".git" trimmed. -/
def gitResolvedName (loc : List Char) : List Char :=
  match splitOnChar '%' loc with
  | [] => []
  | url :: rest =>
    match rest with
    | ov :: _ => ov
    | [] => trimGit ((splitOnChar '/' url).getLastD [])

/-- The literal name "init". -/
def initName : List Char := ['i', 'n', 'i', 't']

/-- Renaming applied when a package's name equals the designated init
name (lines 391, 421, 443-449). -/
def renameInit (init pkg : List Char) : List Char := if pkg == init then initName else pkg

/-- The literal "x86_64". -/
def archX86 : List Char := ['x', '8', '6', '_', '6', '4']

/-- The literal "rpi". -/
def archRpi : List Char := ['r', 'p', 'i']

/-- Architecture gate of main (lines 545-549). -/
def validArch (arch : List Char) : Bool := arch == archX86 || arch == archRpi

/-- The init-presence test of main (lines 551-572): the init name equals
some registry crate name or some git spec's resolved name. -/
def initPresent (crates git : List (List Char)) (init : List Char) : Bool :=
  crates.any (fun pkg => pkg == init) || git.any (fun loc => gitResolvedName loc == init)

/-- Configuration errors main can bail with before the output target is
even opened. -/
inductive ConfigError where
  | invalidArch
  | initMissing
deriving DecidableEq

/-- The validation prefix of main (lines 545-576), in source order:
the architecture gate first, then the init-presence gate.  Both bail
before OpenOptions::open touches the output target (line 578), so an
error here precedes any write. -/
def mainGate (arch : List Char) (crates git : List (List Char)) (init : List Char) :
    Except ConfigError Unit :=
  if validArch arch then
    if initPresent crates git init then Except.ok ()
    else Except.error ConfigError.initMissing
  else Except.error ConfigError.invalidArch

/-- C6: whenever the designated init name matches no supplied package
spec's resolved name, main fails with a configuration error; mainGate
models everything main does before the output target is opened, so the
failure precedes any write. -/
theorem claim6_init_gate (arch : List Char) (crates git : List (List Char)) (init : List Char)
    (h : initPresent crates git init = false) :
    ∃ e, mainGate arch crates git init = Except.error e := by
  unfold mainGate
  by_cases ha : validArch arch
  · exact ⟨ConfigError.initMissing, by simp [ha, h]⟩
  · exact ⟨ConfigError.invalidArch, by simp [ha]⟩

/-- Witness for C6: init "b" is neither the crate "a" nor the resolved
name "other" of the git spec, so the run fails. -/
theorem claim6_witness :
    initPresent [("a").toList] [("https://example.com/repo.git%other").toList] ("b").toList
      = false
    ∧ ∃ e, mainGate archX86 [("a").toList] [("https://example.com/repo.git%other").toList]
        ("b").toList = Except.error e :=
  ⟨by decide, claim6_init_gate _ _ _ _ (by decide)⟩

/-! ## Root tree assembly (write_root, src/main.rs lines 376-516)

Inode identifiers returned by the squashfs tree's add calls are
abstracted as the index of the add in program order: the registry-crate
files first (one per element of crates), then the git files. -/

/-- The (name, inode) pairs of the /bin directory written by write_root
(lines 436-460): the names come from the registry crate list only
(init-renamed), zipped against the combined inode list of all added
binaries; List.zip truncates to the shorter list like Rust's zip. -/
def binDirEntries (crates git : List (List Char)) (init : List Char) :
    List (List Char × Nat) :=
  (crates.map (renameInit init)).zip (List.range (crates.length + git.length))

/-- Modelled from the spec: the /bin names the spec promises — one entry
per installed package (registry and source-control), with the init
package's entry renamed to "init".  Used only for comparison with
binDirEntries. -/
def specBinNames (crates git : List (List Char)) (init : List Char) : List (List Char) :=
  (crates ++ git.map gitResolvedName).map (renameInit init)

/-- C7 (code bug): with crates = ["a"], one git spec resolving to
"myinit" and init = "myinit", the spec promises /bin entries "a" and
"init", but the code's /bin listing zips only the registry-crate names
against the combined inode list, so it holds the single entry "a": the
git-installed init package appears under no name — neither "init" nor
"myinit". -/
theorem claim7_git_names_dropped :
    gitResolvedName ("https://example.com/myinit").toList = ("myinit").toList
    ∧ specBinNames [("a").toList] [("https://example.com/myinit").toList] ("myinit").toList
      = [("a").toList, initName]
    ∧ binDirEntries [("a").toList] [("https://example.com/myinit").toList] ("myinit").toList
      = [(("a").toList, 0)]
    ∧ initName ∉ (binDirEntries [("a").toList] [("https://example.com/myinit").toList]
        ("myinit").toList).map Prod.fst
    ∧ ("myinit").toList ∉ (binDirEntries [("a").toList] [("https://example.com/myinit").toList]
        ("myinit").toList).map Prod.fst := by
  decide

/-- Metadata fields passed to every squashfs tree add call. -/
structure SqsSourceMeta where
  uid : Nat
  gid : Nat
  mode : Nat
  modified : Nat
  xattrs : List (Nat × Nat)
deriving DecidableEq

/-- Path of a binary below /bin. -/
def binPath (n : List Char) : List Char := ['/', 'b', 'i', 'n', '/'] ++ n

/-- The (path, metadata) pairs of every tree.add call made by write_root,
in program order (lines 384-506): one file per registry crate, one file
per git spec, then the /bin, /dev, /boot and / directories.  Each add
site passes uid 0, gid 0, mode 0o755, modified 0 and an empty xattrs map
literally, exactly as in the source. -/
def rootTreeAdds (crates git : List (List Char)) (init : List Char) :
    List (List Char × SqsSourceMeta) :=
  crates.map (fun pkg => (binPath (renameInit init pkg), ⟨0, 0, 0o755, 0, []⟩))
    ++ git.map (fun loc => (binPath (renameInit init (gitResolvedName loc)), ⟨0, 0, 0o755, 0, []⟩))
    ++ [(['/', 'b', 'i', 'n'], ⟨0, 0, 0o755, 0, []⟩),
        (['/', 'd', 'e', 'v'], ⟨0, 0, 0o755, 0, []⟩),
        (['/', 'b', 'o', 'o', 't'], ⟨0, 0, 0o755, 0, []⟩),
        (['/'], ⟨0, 0, 0o755, 0, []⟩)]

/-- C8: for every input, the metadata of every node write_root adds is
the constant record (uid 0, gid 0, mode 0o755, mtime 0, no xattrs) —
the whole metadata projection is List.replicate, fully determined by the
input lengths.  Since rootTreeAdds is a pure function of (crates, git,
init), two runs with identical inputs produce byte-identical tree
metadata (paths included), which is the determinism half of the claim;
content bytes come from the external compiler and are out of scope as
the claim itself notes. -/
theorem claim8_metadata_deterministic (crates git : List (List Char)) (init : List Char) :
    (rootTreeAdds crates git init).map Prod.snd
      = List.replicate (crates.length + git.length + 4) (⟨0, 0, 0o755, 0, []⟩ : SqsSourceMeta) := by
  unfold rootTreeAdds
  simp only [List.map_append, List.map_map, List.map_cons, List.map_nil]
  have h1 : (Prod.snd ∘ fun pkg =>
      (binPath (renameInit init pkg), (⟨0, 0, 0o755, 0, []⟩ : SqsSourceMeta)))
      = fun _ => (⟨0, 0, 0o755, 0, []⟩ : SqsSourceMeta) := rfl
  have h2 : (Prod.snd ∘ fun loc =>
      (binPath (renameInit init (gitResolvedName loc)), (⟨0, 0, 0o755, 0, []⟩ : SqsSourceMeta)))
      = fun _ => (⟨0, 0, 0o755, 0, []⟩ : SqsSourceMeta) := rfl
  rw [h1, h2, List.map_const', List.map_const',
    show ([⟨0, 0, 0o755, 0, []⟩, ⟨0, 0, 0o755, 0, []⟩, ⟨0, 0, 0o755, 0, []⟩,
      ⟨0, 0, 0o755, 0, []⟩] : List SqsSourceMeta)
      = List.replicate 4 (⟨0, 0, 0o755, 0, []⟩ : SqsSourceMeta) from rfl,
    List.replicate_add, List.replicate_add, List.append_assoc]

end RustkrazyPacker
